import Mathlib

/-!
Verification development for the `launcher` service.

The Go sources are shallowly embedded below:
* `template.go` — `TemplateSpec`, `GenTemplateSpec`, `NewJobFromTemplate`,
  `NewServiceFromTemplate`, `NewIngressFromTemplate` (the hashing uses a
  byte-level SHA-1 implementation matching `crypto/sha1`; the text/template
  engine and the YAML decoder are modelled as abstract functions, since they
  are external libraries).
* `service.go` — `Launch` (with `launchJob` / `launchService` /
  `launchIngress`) and `CleanupWatcher`.  Cluster API calls are recorded in
  an explicit trace of `ApiCall` values statement-by-statement, with the
  outcome of each call supplied by an environment of response functions.
* `main.go` — the supervision of the cleanup goroutine
  (`if err := CleanupWatcher(...); err != nil { log.Fatalf(...) }`).

Machine integers are modelled as `Nat` with explicit reduction modulo 2^32
where Go would overflow.  Go strings are modelled as `String`, except in the
selector-building code of `CleanupWatcher`, where the byte-level slicing
`labelSelector[:len(labelSelector)-1]` is modelled on the character list of
the string (every character that slicing can touch there is ASCII).
-/

set_option maxHeartbeats 1000000

namespace Launcher

/-! ## SHA-1 (`crypto/sha1`), as used by `GenTemplateSpec` -/

/-- 2^32, the modulus for 32-bit word arithmetic. -/
def M32 : Nat := 4294967296

/-- Left-rotation of a 32-bit word. -/
def rotl (n x : Nat) : Nat := ((x <<< n) % M32) ||| (x >>> (32 - n))

/-- UTF-8 encoding of one character (Go's `[]byte(string)` is UTF-8). -/
def charUtf8 (c : Char) : List Nat :=
  let n := c.toNat
  if n < 128 then [n]
  else if n < 2048 then [192 ||| (n >>> 6), 128 ||| (n &&& 63)]
  else if n < 65536 then
    [224 ||| (n >>> 12), 128 ||| ((n >>> 6) &&& 63), 128 ||| (n &&& 63)]
  else
    [240 ||| (n >>> 18), 128 ||| ((n >>> 12) &&& 63),
     128 ||| ((n >>> 6) &&& 63), 128 ||| (n &&& 63)]

/-- The byte sequence of a Go string. -/
def utf8Bytes (s : String) : List Nat := (s.data.map charUtf8).flatten

/-- Big-endian bytes of a 32-bit word. -/
def be32 (n : Nat) : List Nat := [n >>> 24 % 256, n >>> 16 % 256, n >>> 8 % 256, n % 256]

/-- Big-endian bytes of a 64-bit word. -/
def be64 (n : Nat) : List Nat := be32 (n >>> 32) ++ be32 n

/-- SHA-1 message padding: a 0x80 byte, zeros to 56 mod 64, then the
64-bit big-endian bit length. -/
def sha1Pad (msg : List Nat) : List Nat :=
  msg ++ 128 :: (List.replicate ((119 - msg.length % 64) % 64) 0 ++ be64 (msg.length * 8))

/-- The sixteen 32-bit big-endian words of one 64-byte block. -/
def wordsOfBlock (block : List Nat) : List Nat :=
  (List.range 16).map (fun i =>
    block.getD (4 * i) 0 * 16777216 + block.getD (4 * i + 1) 0 * 65536 +
      block.getD (4 * i + 2) 0 * 256 + block.getD (4 * i + 3) 0)

/-- Extend the 16 message words to the 80-word schedule. -/
def sha1Schedule (ws : List Nat) : List Nat :=
  (List.range 64).foldl (fun acc _ =>
    let n := acc.length
    acc ++ [rotl 1 ((acc.getD (n - 3) 0) ^^^ (acc.getD (n - 8) 0) ^^^
      (acc.getD (n - 14) 0) ^^^ (acc.getD (n - 16) 0))]) ws

/-- The SHA-1 round function for round `i`. -/
def sha1F (i b c d : Nat) : Nat :=
  if i < 20 then (b &&& c) ||| ((b ^^^ 4294967295) &&& d)
  else if i < 40 then b ^^^ c ^^^ d
  else if i < 60 then (b &&& c) ||| (b &&& d) ||| (c &&& d)
  else b ^^^ c ^^^ d

/-- The SHA-1 round constant for round `i`. -/
def sha1K (i : Nat) : Nat :=
  if i < 20 then 1518500249
  else if i < 40 then 1859775393
  else if i < 60 then 2400959708
  else 3395469782

/-- One SHA-1 round: state `(a, b, c, d, e)` with round index and word. -/
def sha1Round (st : Nat × Nat × Nat × Nat × Nat) (iw : Nat × Nat) :
    Nat × Nat × Nat × Nat × Nat :=
  ((rotl 5 st.1 + sha1F iw.1 st.2.1 st.2.2.1 st.2.2.2.1 + st.2.2.2.2 +
      sha1K iw.1 + iw.2) % M32,
   st.1, rotl 30 st.2.1, st.2.2.1, st.2.2.2.1)

/-- Compress one 64-byte block into the running hash state. -/
def sha1Block (h : Nat × Nat × Nat × Nat × Nat) (block : List Nat) :
    Nat × Nat × Nat × Nat × Nat :=
  let f := ((List.range 80).zip (sha1Schedule (wordsOfBlock block))).foldl sha1Round h
  ((h.1 + f.1) % M32, (h.2.1 + f.2.1) % M32, (h.2.2.1 + f.2.2.1) % M32,
   (h.2.2.2.1 + f.2.2.2.1) % M32, (h.2.2.2.2 + f.2.2.2.2) % M32)

/-- The SHA-1 initial state. -/
def sha1Init : Nat × Nat × Nat × Nat × Nat :=
  (1732584193, 4023233417, 2562383102, 271733878, 3285377520)

/-- The final SHA-1 state for a message. -/
def sha1Digest (msg : List Nat) : Nat × Nat × Nat × Nat × Nat :=
  let padded := sha1Pad msg
  (List.range (padded.length / 64)).foldl
    (fun h i => sha1Block h ((padded.drop (64 * i)).take 64)) sha1Init

/-- The 20-byte SHA-1 digest, as `sha1.Sum` returns it. -/
def sha1Bytes (msg : List Nat) : List Nat :=
  be32 (sha1Digest msg).1 ++ be32 (sha1Digest msg).2.1 ++
    be32 (sha1Digest msg).2.2.1 ++ be32 (sha1Digest msg).2.2.2.1 ++
    be32 (sha1Digest msg).2.2.2.2

/-! ## Lowercase hex formatting (`fmt.Sprintf("%x", hash)`) -/

/-- The lowercase hexadecimal alphabet. -/
def hexLowerChars : List Char := "0123456789abcdef".data

/-- The lowercase hex digit for a nibble. -/
def hexDigit (n : Nat) : Char := hexLowerChars.getD (n % 16) '0'

/-- The two lowercase hex digits of one byte. -/
def byteHex (b : Nat) : List Char := [hexDigit (b / 16), hexDigit b]

/-- `%x` formatting of a byte slice: two lowercase hex digits per byte. -/
def bytesToHex (bs : List Nat) : List Char := (bs.map byteHex).flatten

/-- The 40 lowercase hex characters of the SHA-1 digest of a string. -/
def sha1HexChars (s : String) : List Char := bytesToHex (sha1Bytes (utf8Bytes s))

/-! ## `template.go`: `TemplateSpec` and `GenTemplateSpec` -/

/-- Modelled from the spec: the identity-label key (`identityLabelKey`) is a
fixed, process-wide constant naming the label key under which the identifier
is stored on every created resource.  Its defining Go file is not among the
provided sources; the concrete string below is arbitrary and no theorem
depends on it. -/
def VideoIdLabel : String := "video-id"

/-- The data context handed to the templates (struct `TemplateSpec`). -/
structure TemplateSpec where
  VideoId : String
  UniqueName : String := ""
  VideoIdLabel : String := ""
deriving DecidableEq, Repr

/-- `GenTemplateSpec`: hash the video ID, keep the first 8 hex characters
(Go slices the 40-character hex string as `hashString[:8]`, a byte slice of
ASCII characters), and record the identity-label key. -/
def GenTemplateSpec (spec : TemplateSpec) : TemplateSpec :=
  { spec with
    UniqueName := String.mk ((sha1HexChars spec.VideoId).take 8),
    VideoIdLabel := VideoIdLabel }

/-! ## Label maps

Go `map[string]string` values are modelled as association lists;
`setLabel` is map assignment (replace the entry for the key if present,
otherwise add one) and `getLabel` is map lookup. -/

/-- Map lookup, `m[k]` with presence information. -/
def getLabel (ls : List (String × String)) (k : String) : Option String :=
  (ls.find? (fun p => p.1 == k)).map (fun p => p.2)

/-- Go map indexing `m[k]`: the zero value `""` when the key is absent. -/
def getLabelD (ls : List (String × String)) (k : String) : String :=
  (getLabel ls k).getD ""

/-- Map assignment `m[k] = v`. -/
def setLabel (ls : List (String × String)) (k v : String) : List (String × String) :=
  if ls.any (fun p => p.1 == k) then
    ls.map (fun p => if p.1 == k then (k, v) else p)
  else ls ++ [(k, v)]

/-- `for k, v := range ds { m[k] = v }`. -/
def overlayLabels (ls ds : List (String × String)) : List (String × String) :=
  ds.foldl (fun acc p => setLabel acc p.1 p.2) ls

/-! ## `template.go`: rendering

The three Go functions `NewJobFromTemplate`, `NewServiceFromTemplate` and
`NewIngressFromTemplate` are textually identical up to the resource type and
the kind name in the error messages; they are embedded through one generic
`renderResource`.  A parsed cluster object is modelled by its name, its
(possibly nil) label map, and an opaque remainder standing for every other
field of the typed object. -/

/-- A parsed cluster resource: name, possibly-nil label map, and all
remaining fields collapsed into an opaque component. -/
structure K8sResource where
  name : String
  labels : Option (List (String × String))
  rest : String
deriving DecidableEq, Repr

/-- A text template, abstractly: `tmpl.Execute(buf, spec)` either writes
rendered text or fails. -/
def Template : Type := TemplateSpec → Except String String

/-- A YAML/JSON decoder for one resource kind, abstractly:
`yaml.NewYAMLOrJSONDecoder(buf, 100).Decode(&obj)` either yields a typed
object or fails. -/
def Decoder : Type := String → Except String K8sResource

/-- `New<Kind>FromTemplate`: run `GenTemplateSpec`, execute the template,
decode the output, then ensure a label map exists, overlay the default
labels, and set the identity label from `spec.VideoId` last. -/
def renderResource (tmpl : Template) (decode : Decoder)
    (defaults : List (String × String)) (kind : String) (spec0 : TemplateSpec) :
    Except String K8sResource :=
  match tmpl (GenTemplateSpec spec0) with
  | Except.error e => Except.error ("error executing " ++ kind ++ " template: " ++ e)
  | Except.ok rendered =>
    match decode rendered with
    | Except.error e => Except.error ("error parsing " ++ kind ++ " YAML: " ++ e)
    | Except.ok res =>
      Except.ok { res with
        labels := some (setLabel (overlayLabels (res.labels.getD []) defaults)
          VideoIdLabel (GenTemplateSpec spec0).VideoId) }

/-- `NewJobFromTemplate` (kind name "job" in the error messages). -/
def NewJobFromTemplate (tmpl : Template) (decode : Decoder)
    (defaults : List (String × String)) (spec : TemplateSpec) :
    Except String K8sResource :=
  renderResource tmpl decode defaults "job" spec

/-- `NewServiceFromTemplate` (kind name "service" in the error messages). -/
def NewServiceFromTemplate (tmpl : Template) (decode : Decoder)
    (defaults : List (String × String)) (spec : TemplateSpec) :
    Except String K8sResource :=
  renderResource tmpl decode defaults "service" spec

/-- `NewIngressFromTemplate` (kind name "ingress" in the error messages). -/
def NewIngressFromTemplate (tmpl : Template) (decode : Decoder)
    (defaults : List (String × String)) (spec : TemplateSpec) :
    Except String K8sResource :=
  renderResource tmpl decode defaults "ingress" spec

/-! ## Cluster API calls -/

/-- One call to the cluster API, as issued by `Launch` or `CleanupWatcher`. -/
inductive ApiCall where
  | createJob (r : K8sResource)
  | createService (r : K8sResource)
  | createIngress (r : K8sResource)
  | watchJobs (selector : String)
  | listServices (selector : String)
  | deleteService (name : String)
  | listIngresses (selector : String)
  | deleteIngress (name : String)
deriving DecidableEq, Repr

/-- The position of a create call in the order `Launch` attempts kinds
(non-create calls are sent out of range). -/
def apiKindIdx : ApiCall → Nat
  | ApiCall.createJob _ => 0
  | ApiCall.createService _ => 1
  | ApiCall.createIngress _ => 2
  | _ => 9

/-- Whether a call is a create call. -/
def isCreateCall : ApiCall → Bool
  | ApiCall.createJob _ => true
  | ApiCall.createService _ => true
  | ApiCall.createIngress _ => true
  | _ => false

/-! ## `service.go`: `Launch`

The `LauncherService` configuration: the three optional templates, the
decoders for the three kinds, the cluster clients' `Create` responses, and
the default-label set.  `Launch` returns the Go error value together with
the trace of cluster API calls it issued. -/

/-- The launcher's configuration and cluster environment. -/
structure LauncherCfg where
  jobTemplate : Option Template
  serviceTemplate : Option Template
  ingressTemplate : Option Template
  decodeJob : Decoder
  decodeService : Decoder
  decodeIngress : Decoder
  createJob : K8sResource → Except String K8sResource
  createService : K8sResource → Except String K8sResource
  createIngress : K8sResource → Except String K8sResource
  defaults : List (String × String)

/-- Stand-in for the `%#v` dump of the job object in `launchJob`'s create
error (the exact Go formatting is not modelled; no claim concerns it). -/
def dumpResource (r : K8sResource) : String := r.name

/-- `launchJob`: render, then create; the create call is recorded even when
it fails. -/
def launchJob (cfg : LauncherCfg) (t : Template) (spec : TemplateSpec) :
    Except String K8sResource × List ApiCall :=
  match NewJobFromTemplate t cfg.decodeJob cfg.defaults spec with
  | Except.error e => (Except.error ("error creating job from template: " ++ e), [])
  | Except.ok job =>
    match cfg.createJob job with
    | Except.error e =>
      (Except.error ("error creating job " ++ dumpResource job ++ ": " ++ e),
       [ApiCall.createJob job])
    | Except.ok j => (Except.ok j, [ApiCall.createJob job])

/-- `launchService`: render, then create. -/
def launchService (cfg : LauncherCfg) (t : Template) (spec : TemplateSpec) :
    Except String K8sResource × List ApiCall :=
  match NewServiceFromTemplate t cfg.decodeService cfg.defaults spec with
  | Except.error e => (Except.error ("error creating service from template: " ++ e), [])
  | Except.ok svc =>
    match cfg.createService svc with
    | Except.error e =>
      (Except.error ("error creating service: " ++ e), [ApiCall.createService svc])
    | Except.ok s => (Except.ok s, [ApiCall.createService svc])

/-- `launchIngress`: render, then create. -/
def launchIngress (cfg : LauncherCfg) (t : Template) (spec : TemplateSpec) :
    Except String K8sResource × List ApiCall :=
  match NewIngressFromTemplate t cfg.decodeIngress cfg.defaults spec with
  | Except.error e => (Except.error ("error creating ingress from template: " ++ e), [])
  | Except.ok ing =>
    match cfg.createIngress ing with
    | Except.error e =>
      (Except.error ("error creating ingress: " ++ e), [ApiCall.createIngress ing])
    | Except.ok i => (Except.ok i, [ApiCall.createIngress ing])

/-- The job step of `Launch`: skipped when no job template is configured,
otherwise `launchJob` with the error wrapped as `Launch` wraps it. -/
def jobStage (cfg : LauncherCfg) (spec : TemplateSpec) :
    Except String Unit × List ApiCall :=
  match cfg.jobTemplate with
  | none => (Except.ok (), [])
  | some t =>
    match launchJob cfg t spec with
    | (Except.error e, cs) => (Except.error ("error creating job: " ++ e), cs)
    | (Except.ok _, cs) => (Except.ok (), cs)

/-- The service step of `Launch`. -/
def serviceStage (cfg : LauncherCfg) (spec : TemplateSpec) :
    Except String Unit × List ApiCall :=
  match cfg.serviceTemplate with
  | none => (Except.ok (), [])
  | some t =>
    match launchService cfg t spec with
    | (Except.error e, cs) => (Except.error ("error creating service: " ++ e), cs)
    | (Except.ok _, cs) => (Except.ok (), cs)

/-- The ingress step of `Launch`. -/
def ingressStage (cfg : LauncherCfg) (spec : TemplateSpec) :
    Except String Unit × List ApiCall :=
  match cfg.ingressTemplate with
  | none => (Except.ok (), [])
  | some t =>
    match launchIngress cfg t spec with
    | (Except.error e, cs) => (Except.error ("error creating ingress: " ++ e), cs)
    | (Except.ok _, cs) => (Except.ok (), cs)

/-- Sequence three steps, stopping at the first error; steps after the
failing one contribute nothing to the trace. -/
def seq3 (a b c : Except String Unit × List ApiCall) :
    Except String Unit × List ApiCall :=
  match a with
  | (Except.error e, cs) => (Except.error e, cs)
  | (Except.ok _, cs1) =>
    match b with
    | (Except.error e, cs) => (Except.error e, cs1 ++ cs)
    | (Except.ok _, cs2) =>
      match c with
      | (Except.error e, cs) => (Except.error e, cs1 ++ cs2 ++ cs)
      | (Except.ok _, cs3) => (Except.ok (), cs1 ++ cs2 ++ cs3)

/-- `Launch`: reject the empty video ID, then attempt job, service, ingress
in that order, skipping unconfigured kinds and stopping at the first
error. -/
def Launch (cfg : LauncherCfg) (videoId : String) :
    Except String Unit × List ApiCall :=
  if videoId = "" then (Except.error "video ID cannot be empty", [])
  else
    let spec : TemplateSpec := { VideoId := videoId }
    seq3 (jobStage cfg spec) (serviceStage cfg spec) (ingressStage cfg spec)

/-! ## `service.go`: `CleanupWatcher`

The watcher builds a label selector out of the default-label set by
appending `"k=v,"` per entry and slicing off the final byte
(`labelSelector[:len(labelSelector)-1]`); on the empty set that slice is
out of range and Go panics, which the model renders as `none`.  The event
channel is modelled as a finite list (the list ending is the channel
closing); each event carries the response functions the cluster gives to
the list/delete calls made while handling it. -/

/-- The selector bytes accumulated by
`for k, v := range DefaultLabels { labelSelector += fmt.Sprintf("%s=%s,", k, v) }`. -/
def mkLabelSelectorChars (ds : List (String × String)) : List Char :=
  ds.foldl (fun acc p => acc ++ p.1.data ++ ['='] ++ p.2.data ++ [',']) []

/-- `labelSelector[:len(labelSelector)-1]`: `none` models the
slice-bounds-out-of-range panic on an empty accumulated string. -/
def mkLabelSelector (ds : List (String × String)) : Option String :=
  let s := mkLabelSelectorChars ds
  if s.length = 0 then none else some (String.mk s.dropLast)

/-- The comma-joined `k=v` selector without a trailing separator, written
directly after the spec's words, for comparison with `mkLabelSelector`. -/
def selJoin : List (String × String) → List Char
  | [] => []
  | [p] => p.1.data ++ ['='] ++ p.2.data
  | p :: q :: r => p.1.data ++ ['='] ++ p.2.data ++ [','] ++ selJoin (q :: r)

/-- A job object as seen by the watcher: name, labels, and
`Status.Succeeded` (an `int32` in Go). -/
structure JobObj where
  name : String
  labels : List (String × String)
  succeeded : Int
deriving DecidableEq, Repr

/-- The object carried by a watch event: either a typed job or a value of
some other (unexpected) dynamic type, identified by its type name. -/
inductive EventObject where
  | job (j : JobObj)
  | other (typeName : String)
deriving DecidableEq, Repr

/-- The cluster's responses to the list/delete calls made while handling
one event. -/
structure CleanupEnv where
  listServices : String → Except String (List K8sResource)
  deleteService : String → Except String Unit
  listIngresses : String → Except String (List K8sResource)
  deleteIngress : String → Except String Unit

/-- The per-job selector: the watcher's selector plus the identity label
with the job's own label value
(`labelSelector + fmt.Sprintf(",%s=%s", VideoIdLabel, job.Labels[VideoIdLabel])`). -/
def videoSelOf (sel : String) (j : JobObj) : String :=
  sel ++ "," ++ VideoIdLabel ++ "=" ++ getLabelD j.labels VideoIdLabel

/-- Delete each listed item by name, logging failures and continuing
(`for _, x := range items { if err := Delete(x.Name); err != nil { log } }`). -/
def deleteEach (del : String → Except String Unit) (call : String → ApiCall)
    (ctx : String) (items : List K8sResource) : List ApiCall × List String :=
  items.foldl (fun acc it =>
    match del it.name with
    | Except.ok _ => (acc.1 ++ [call it.name], acc.2)
    | Except.error e => (acc.1 ++ [call it.name], acc.2 ++ [ctx ++ e])) ([], [])

/-- The service half of the cleanup action: list the services matching the
per-job selector and delete each by name; a listing failure is logged and
yields no deletes. -/
def svcCleanup (env : CleanupEnv) (vsel : String) : List ApiCall × List String :=
  match env.listServices vsel with
  | Except.ok items =>
    (ApiCall.listServices vsel ::
       (deleteEach env.deleteService ApiCall.deleteService
         "error deleting service: " items).1,
     (deleteEach env.deleteService ApiCall.deleteService
       "error deleting service: " items).2)
  | Except.error e =>
    ([ApiCall.listServices vsel], ["error listing services: " ++ e])

/-- The ingress half of the cleanup action. -/
def ingCleanup (env : CleanupEnv) (vsel : String) : List ApiCall × List String :=
  match env.listIngresses vsel with
  | Except.ok items =>
    (ApiCall.listIngresses vsel ::
       (deleteEach env.deleteIngress ApiCall.deleteIngress
         "error deleting ingress: " items).1,
     (deleteEach env.deleteIngress ApiCall.deleteIngress
       "error deleting ingress: " items).2)
  | Except.error e =>
    ([ApiCall.listIngresses vsel], ["error listing ingress: " ++ e])

/-- The body of the watch loop for one event: discard non-job objects with
a log, ignore jobs with no successes, and otherwise list-and-delete the
matching services and then the matching ingresses, logging list and delete
failures.  Returns the calls issued and the log lines written. -/
def processEvent (sel : String) (env : CleanupEnv) (obj : EventObject) :
    List ApiCall × List String :=
  match obj with
  | EventObject.other t => ([], ["CleanupWatcher got unexpected object type: " ++ t])
  | EventObject.job j =>
    if 0 < j.succeeded then
      ((svcCleanup env (videoSelOf sel j)).1 ++ (ingCleanup env (videoSelOf sel j)).1,
       ("job " ++ j.name ++ " has completed, deleting associated service and ingress")
         :: ((svcCleanup env (videoSelOf sel j)).2 ++ (ingCleanup env (videoSelOf sel j)).2))
    else ([], [])

/-- How a run of `CleanupWatcher` ends. -/
inductive WatcherResult where
  | crashed
  | watchError (e : String)
  | streamEnded
deriving DecidableEq, Repr

/-- `CleanupWatcher`: build the selector (panicking on an empty default-label
set), subscribe via `Watch` (returning an error if the subscription cannot be
established), then consume every event until the channel closes and return
`nil`.  The result is paired with the API-call trace and the log lines. -/
def CleanupWatcher (defaults : List (String × String))
    (watchOutcome : Except String Unit) (events : List (CleanupEnv × EventObject)) :
    WatcherResult × List ApiCall × List String :=
  match mkLabelSelector defaults with
  | none => (WatcherResult.crashed, [], [])
  | some sel =>
    match watchOutcome with
    | Except.error e =>
      (WatcherResult.watchError ("error watching jobs: " ++ e), [ApiCall.watchJobs sel], [])
    | Except.ok _ =>
      let r := events.foldl (fun acc pe =>
        (acc.1 ++ (processEvent sel pe.1 pe.2).1,
         acc.2 ++ (processEvent sel pe.1 pe.2).2)) ([], [])
      (WatcherResult.streamEnded, ApiCall.watchJobs sel :: r.1, r.2)

/-- The Go return value of `CleanupWatcher` for each way it can end
(`none` when it panics and never returns). -/
def watcherGoReturn : WatcherResult → Option (Except String Unit)
  | WatcherResult.crashed => none
  | WatcherResult.watchError e => some (Except.error e)
  | WatcherResult.streamEnded => some (Except.ok ())

/-- `main.go`'s supervision of the cleanup goroutine:
`if err := s.CleanupWatcher(ctx); err != nil { log.Fatalf(...) }` — `true`
means the process is killed. -/
def mainTreatsFatal : Except String Unit → Bool
  | Except.error _ => true
  | Except.ok _ => false

/-! ## Auxiliary definitions used by the proofs -/

/-- One `"k=v,"` piece of the accumulated selector string. -/
def selPiece (p : String × String) : List Char :=
  p.1.data ++ ['='] ++ p.2.data ++ [',']

/-- The shape every `Launch` step has: at most one create call of its own
kind; the step vanishes when its template is absent; its errors carry the
step's wrapping message and imply the template is present. -/
def StageOK (tmplOpt : Option Template) (call : K8sResource → ApiCall)
    (msg : String) (st : Except String Unit × List ApiCall) : Prop :=
  (st.2 = [] ∨ ∃ x, st.2 = [call x]) ∧
  (tmplOpt = none → st = (Except.ok (), [])) ∧
  (∀ e, st.1 = Except.error e → tmplOpt ≠ none ∧ ∃ m, e = msg ++ m)

/-! ## Concrete fixtures used to instantiate the theorems -/

/-- A template that always renders the same text. -/
def tmplOk : Template := fun _ => Except.ok "rendered"

/-- A template whose execution fails (an unresolved field, say). -/
def tmplBad : Template := fun _ => Except.error "boom"

/-- A decoder that always yields the same object, with a nil label map. -/
def decOk : Decoder :=
  fun _ => Except.ok { name := "res", labels := none, rest := "body" }

/-- A cluster environment in which every call succeeds and lists are empty. -/
def env0 : CleanupEnv :=
  { listServices := fun _ => Except.ok []
    deleteService := fun _ => Except.ok ()
    listIngresses := fun _ => Except.ok []
    deleteIngress := fun _ => Except.ok () }

/-- The object `decOk`'s output becomes after rendering with default labels
`[("app", "x")]` and identifier `"vid"`. -/
def res1 : K8sResource :=
  { name := "res", labels := some [("app", "x"), ("video-id", "vid")],
    rest := "body" }

/-- The object `decOk`'s output becomes after rendering with no default
labels and identifier `"vid"`. -/
def res2 : K8sResource :=
  { name := "res", labels := some [("video-id", "vid")], rest := "body" }

/-- A launcher configuration with all three templates present and an
always-succeeding cluster. -/
def cfg0 : LauncherCfg :=
  { jobTemplate := some tmplOk
    serviceTemplate := some tmplOk
    ingressTemplate := some tmplOk
    decodeJob := decOk
    decodeService := decOk
    decodeIngress := decOk
    createJob := Except.ok
    createService := Except.ok
    createIngress := Except.ok
    defaults := [("app", "x")] }

/-! ## Lemmas about label maps -/

/-- Unfolding `overlayLabels` one entry at a time. -/
theorem overlayLabels_cons (ls : List (String × String)) (p : String × String)
    (t : List (String × String)) :
    overlayLabels ls (p :: t) = overlayLabels (setLabel ls p.1 p.2) t := rfl

theorem find?_map_set (k v : String) :
    ∀ ls : List (String × String), ls.any (fun p => p.1 == k) = true →
      (ls.map (fun p => if p.1 == k then (k, v) else p)).find? (fun p => p.1 == k)
        = some (k, v)
  | [], h => by simp at h
  | p :: t, h => by
    cases hp : (p.1 == k) with
    | true => simp [List.find?, hp]
    | false =>
      have ht : t.any (fun p => p.1 == k) = true := by
        simpa [hp] using h
      simpa [List.find?, hp] using find?_map_set k v t ht

theorem find?_append_one (k v : String) :
    ∀ ls : List (String × String), ls.any (fun p => p.1 == k) = false →
      (ls ++ [(k, v)]).find? (fun p => p.1 == k) = some (k, v)
  | [], _ => by simp [List.find?]
  | p :: t, h => by
    cases hp : (p.1 == k) with
    | true => simp [hp] at h
    | false =>
      have ht : t.any (fun p => p.1 == k) = false := by
        simpa [hp] using h
      simpa [List.find?, hp] using find?_append_one k v t ht

/-- `m[k] = v` makes `m[k]` read back `v`. -/
theorem getLabel_setLabel_self (ls : List (String × String)) (k v : String) :
    getLabel (setLabel ls k v) k = some v := by
  unfold getLabel setLabel
  cases h : ls.any (fun p => p.1 == k) with
  | true => rw [if_pos rfl, find?_map_set k v ls h]; rfl
  | false => rw [if_neg (by simp), find?_append_one k v ls h]; rfl

theorem find?_map_set_ne (k v k' : String) (hk : k' ≠ k) :
    ∀ ls : List (String × String),
      (ls.map (fun p => if p.1 == k then (k, v) else p)).find? (fun p => p.1 == k')
        = ls.find? (fun p => p.1 == k')
  | [] => by simp
  | p :: t => by
    cases hp : (p.1 == k) with
    | true =>
      have hp' : p.1 = k := by simpa using hp
      have h1 : (k == k') = false := by
        simp [hp'] at *
        exact fun h => hk h.symm
      have h2 : (p.1 == k') = false := by simp [hp']; exact fun h => hk h.symm
      simpa [List.find?, hp, h1, h2] using find?_map_set_ne k v k' hk t
    | false =>
      cases hq : (p.1 == k') with
      | true => simp [List.find?, hp, hq]
      | false => simpa [List.find?, hp, hq] using find?_map_set_ne k v k' hk t

theorem find?_append_ne (k v k' : String) (hk : k' ≠ k) :
    ∀ ls : List (String × String),
      (ls ++ [(k, v)]).find? (fun p => p.1 == k') = ls.find? (fun p => p.1 == k')
  | [] => by
    have h1 : (k == k') = false := by simp; exact fun h => hk h.symm
    simp [List.find?, h1]
  | p :: t => by
    cases hq : (p.1 == k') with
    | true => simp [List.find?, hq]
    | false => simpa [List.find?, hq] using find?_append_ne k v k' hk t

/-- Assigning under a different key leaves a lookup unchanged. -/
theorem getLabel_setLabel_ne (ls : List (String × String)) (k v k' : String)
    (hk : k' ≠ k) : getLabel (setLabel ls k v) k' = getLabel ls k' := by
  unfold getLabel setLabel
  cases h : ls.any (fun p => p.1 == k) with
  | true => rw [if_pos rfl, find?_map_set_ne k v k' hk ls]
  | false => rw [if_neg (by simp), find?_append_ne k v k' hk ls]

/-- An overlay that does not mention a key leaves its lookup unchanged. -/
theorem getLabel_overlay_not_mem (k : String) :
    ∀ (ds ls : List (String × String)), k ∉ ds.map Prod.fst →
      getLabel (overlayLabels ls ds) k = getLabel ls k
  | [], _, _ => rfl
  | (k0, v0) :: t, ls, h => by
    simp only [List.map_cons, List.mem_cons, not_or] at h
    have h2 : k ∉ t.map Prod.fst := h.2
    rw [overlayLabels_cons, getLabel_overlay_not_mem k t _ h2,
      getLabel_setLabel_ne _ _ _ _ h.1]

/-- Overlaying a distinct-keyed map writes every one of its entries. -/
theorem getLabel_overlay_mem (k v : String) :
    ∀ (ds ls : List (String × String)), (ds.map Prod.fst).Nodup → (k, v) ∈ ds →
      getLabel (overlayLabels ls ds) k = some v
  | [], _, _, hm => by simp at hm
  | (k0, v0) :: t, ls, hnd, hm => by
    rw [overlayLabels_cons]
    rcases List.mem_cons.mp hm with heq | ht
    · obtain ⟨hk, hv⟩ := Prod.mk.inj heq
      subst hk; subst hv
      have hnotin : k ∉ t.map Prod.fst :=
        (List.nodup_cons.mp (by simpa using hnd)).1
      rw [getLabel_overlay_not_mem k t _ hnotin, getLabel_setLabel_self]
    · have hnd' : (t.map Prod.fst).Nodup :=
        (List.nodup_cons.mp (by simpa using hnd)).2
      exact getLabel_overlay_mem k v t _ hnd' ht

/-! ## Lemmas about the selector construction -/

theorem selPiece_concat (p : String × String) :
    selPiece p = (p.1.data ++ ['='] ++ p.2.data) ++ [','] := by
  simp [selPiece]

theorem selPiece_ne_nil (p : String × String) : selPiece p ≠ [] := by
  rw [selPiece_concat]
  intro h
  have := congrArg List.length h
  simp at this

theorem selector_foldl :
    ∀ (ds : List (String × String)) (acc : List Char),
      ds.foldl (fun acc p => acc ++ p.1.data ++ ['='] ++ p.2.data ++ [',']) acc
        = acc ++ (ds.map selPiece).flatten
  | [], acc => by simp
  | p :: t, acc => by
    rw [List.foldl_cons, selector_foldl t, List.map_cons, List.flatten_cons,
      ← List.append_assoc]
    congr 1
    simp [selPiece, List.append_assoc]

theorem selector_pieces_ne_nil (q : String × String) (r : List (String × String)) :
    ((q :: r).map selPiece).flatten ≠ [] := by
  rw [List.map_cons, List.flatten_cons]
  intro h
  exact selPiece_ne_nil q (List.append_eq_nil.mp h).1

theorem selector_dropLast_selJoin :
    ∀ ds : List (String × String), ds ≠ [] →
      ((ds.map selPiece).flatten).dropLast = selJoin ds
  | [], h => absurd rfl h
  | [p], _ => by
    rw [List.map_cons, List.map_nil, List.flatten_cons, List.flatten_nil,
      List.append_nil, selPiece_concat, List.dropLast_concat]
    rfl
  | p :: q :: r, _ => by
    rw [List.map_cons, List.flatten_cons]
    rw [List.dropLast_append_of_ne_nil _ (selector_pieces_ne_nil q r)]
    rw [selector_dropLast_selJoin (q :: r) (by simp)]
    show selPiece p ++ selJoin (q :: r) = selJoin (p :: q :: r)
    simp [selPiece, selJoin, List.append_assoc]

theorem mkLabelSelectorChars_eq (ds : List (String × String)) :
    mkLabelSelectorChars ds = (ds.map selPiece).flatten := by
  unfold mkLabelSelectorChars
  rw [selector_foldl ds [], List.nil_append]

/-- On a non-empty default-label set the Go construction produces exactly
the comma-joined selector without a trailing separator. -/
theorem mkLabelSelector_eq (ds : List (String × String)) (h : ds ≠ []) :
    mkLabelSelector ds = some (String.mk (selJoin ds)) := by
  obtain ⟨p, t, rfl⟩ : ∃ p t, ds = p :: t := by
    cases ds with
    | nil => exact absurd rfl h
    | cons p t => exact ⟨p, t, rfl⟩
  unfold mkLabelSelector
  rw [mkLabelSelectorChars_eq]
  rw [if_neg (fun hlen =>
    selector_pieces_ne_nil p t (List.length_eq_zero.mp hlen))]
  rw [selector_dropLast_selJoin (p :: t) (by simp)]

/-- On the empty set the slice `labelSelector[:len(labelSelector)-1]` is out
of range: the construction panics. -/
theorem mkLabelSelector_nil : mkLabelSelector [] = none := rfl

/-! ## Lemmas about hex formatting and the digest -/

theorem hexDigit_mem (n : Nat) : hexDigit n ∈ hexLowerChars := by
  unfold hexDigit
  have h : n % 16 < 16 := Nat.mod_lt _ (by norm_num)
  generalize hm : n % 16 = m at h ⊢
  interval_cases m <;> decide

theorem mem_bytesToHex {c : Char} :
    ∀ bs : List Nat, c ∈ bytesToHex bs → c ∈ hexLowerChars
  | [], h => by simp [bytesToHex] at h
  | b :: t, h => by
    unfold bytesToHex at h
    rw [List.map_cons, List.flatten_cons] at h
    rcases List.mem_append.mp h with h1 | h2
    · have : c = hexDigit (b / 16) ∨ c = hexDigit b := by
        simpa [byteHex] using h1
      rcases this with h | h
      · rw [h]; exact hexDigit_mem _
      · rw [h]; exact hexDigit_mem _
    · exact mem_bytesToHex t h2

theorem length_bytesToHex : ∀ bs : List Nat, (bytesToHex bs).length = 2 * bs.length
  | [] => rfl
  | b :: t => by
    simp only [bytesToHex, List.map_cons, List.flatten_cons, List.length_append,
      byteHex, List.length_cons, List.length_nil, List.length_map]
    have := length_bytesToHex t
    simp only [bytesToHex] at this
    omega

theorem length_sha1Bytes (m : List Nat) : (sha1Bytes m).length = 20 := by
  simp [sha1Bytes, be32]

theorem length_sha1HexChars (s : String) : (sha1HexChars s).length = 40 := by
  simp [sha1HexChars, length_bytesToHex, length_sha1Bytes]

theorem mem_sha1HexChars {c : Char} (s : String) (h : c ∈ sha1HexChars s) :
    c ∈ hexLowerChars := mem_bytesToHex _ h

/-! ## Lemmas about rendering -/

@[simp] theorem GenTemplateSpec_VideoId (s : TemplateSpec) :
    (GenTemplateSpec s).VideoId = s.VideoId := rfl

/-- Inversion of a successful render: the template executed, the output
decoded, and the result is the parsed object with only its labels
rewritten. -/
theorem renderResource_ok {tmpl : Template} {dec : Decoder}
    {ds : List (String × String)} {kind : String} {spec : TemplateSpec}
    {res : K8sResource}
    (h : renderResource tmpl dec ds kind spec = Except.ok res) :
    ∃ text parsed, tmpl (GenTemplateSpec spec) = Except.ok text ∧
      dec text = Except.ok parsed ∧
      res = { parsed with
        labels := some (setLabel (overlayLabels (parsed.labels.getD []) ds)
          VideoIdLabel spec.VideoId) } := by
  unfold renderResource at h
  split at h
  · exact absurd h (by simp)
  · rename_i text ht
    split at h
    · exact absurd h (by simp)
    · rename_i parsed hd
      simp only [Except.ok.injEq] at h
      exact ⟨text, parsed, ht, hd, h.symm⟩

/-! ## Lemmas about `Launch` -/

theorem jobStage_ok (cfg : LauncherCfg) (spec : TemplateSpec) :
    StageOK cfg.jobTemplate ApiCall.createJob "error creating job: "
      (jobStage cfg spec) := by
  unfold StageOK
  rcases hob : cfg.jobTemplate with _ | t
  · have hstage : jobStage cfg spec = (Except.ok (), []) := by
      simp [jobStage, hob]
    refine ⟨Or.inl (by rw [hstage]), fun _ => hstage, fun e he => ?_⟩
    rw [hstage] at he; simp at he
  · rcases hr : NewJobFromTemplate t cfg.decodeJob cfg.defaults spec with e | job
    · have hstage : jobStage cfg spec =
          (Except.error ("error creating job: " ++
            ("error creating job from template: " ++ e)), []) := by
        simp [jobStage, launchJob, hob, hr]
      refine ⟨Or.inl (by rw [hstage]), by simp [hob], fun e' he' => ?_⟩
      rw [hstage] at he'; simp at he'
      exact ⟨by simp [hob], _, he'.symm⟩
    · rcases hc : cfg.createJob job with e | j
      · have hstage : jobStage cfg spec =
            (Except.error ("error creating job: " ++
              ("error creating job " ++ dumpResource job ++ ": " ++ e)),
             [ApiCall.createJob job]) := by
          simp [jobStage, launchJob, hob, hr, hc]
        refine ⟨Or.inr ⟨job, by rw [hstage]⟩, by simp [hob], fun e' he' => ?_⟩
        rw [hstage] at he'; simp at he'
        exact ⟨by simp [hob], _, he'.symm⟩
      · have hstage : jobStage cfg spec = (Except.ok (), [ApiCall.createJob job]) := by
          simp [jobStage, launchJob, hob, hr, hc]
        refine ⟨Or.inr ⟨job, by rw [hstage]⟩, by simp [hob], fun e' he' => ?_⟩
        rw [hstage] at he'; simp at he'

theorem serviceStage_ok (cfg : LauncherCfg) (spec : TemplateSpec) :
    StageOK cfg.serviceTemplate ApiCall.createService "error creating service: "
      (serviceStage cfg spec) := by
  unfold StageOK
  rcases hob : cfg.serviceTemplate with _ | t
  · have hstage : serviceStage cfg spec = (Except.ok (), []) := by
      simp [serviceStage, hob]
    refine ⟨Or.inl (by rw [hstage]), fun _ => hstage, fun e he => ?_⟩
    rw [hstage] at he; simp at he
  · rcases hr : NewServiceFromTemplate t cfg.decodeService cfg.defaults spec with e | svc
    · have hstage : serviceStage cfg spec =
          (Except.error ("error creating service: " ++
            ("error creating service from template: " ++ e)), []) := by
        simp [serviceStage, launchService, hob, hr]
      refine ⟨Or.inl (by rw [hstage]), by simp [hob], fun e' he' => ?_⟩
      rw [hstage] at he'; simp at he'
      exact ⟨by simp [hob], _, he'.symm⟩
    · rcases hc : cfg.createService svc with e | s
      · have hstage : serviceStage cfg spec =
            (Except.error ("error creating service: " ++
              ("error creating service: " ++ e)),
             [ApiCall.createService svc]) := by
          simp [serviceStage, launchService, hob, hr, hc]
        refine ⟨Or.inr ⟨svc, by rw [hstage]⟩, by simp [hob], fun e' he' => ?_⟩
        rw [hstage] at he'; simp at he'
        exact ⟨by simp [hob], _, he'.symm⟩
      · have hstage : serviceStage cfg spec =
            (Except.ok (), [ApiCall.createService svc]) := by
          simp [serviceStage, launchService, hob, hr, hc]
        refine ⟨Or.inr ⟨svc, by rw [hstage]⟩, by simp [hob], fun e' he' => ?_⟩
        rw [hstage] at he'; simp at he'

theorem ingressStage_ok (cfg : LauncherCfg) (spec : TemplateSpec) :
    StageOK cfg.ingressTemplate ApiCall.createIngress "error creating ingress: "
      (ingressStage cfg spec) := by
  unfold StageOK
  rcases hob : cfg.ingressTemplate with _ | t
  · have hstage : ingressStage cfg spec = (Except.ok (), []) := by
      simp [ingressStage, hob]
    refine ⟨Or.inl (by rw [hstage]), fun _ => hstage, fun e he => ?_⟩
    rw [hstage] at he; simp at he
  · rcases hr : NewIngressFromTemplate t cfg.decodeIngress cfg.defaults spec with e | ing
    · have hstage : ingressStage cfg spec =
          (Except.error ("error creating ingress: " ++
            ("error creating ingress from template: " ++ e)), []) := by
        simp [ingressStage, launchIngress, hob, hr]
      refine ⟨Or.inl (by rw [hstage]), by simp [hob], fun e' he' => ?_⟩
      rw [hstage] at he'; simp at he'
      exact ⟨by simp [hob], _, he'.symm⟩
    · rcases hc : cfg.createIngress ing with e | i
      · have hstage : ingressStage cfg spec =
            (Except.error ("error creating ingress: " ++
              ("error creating ingress: " ++ e)),
             [ApiCall.createIngress ing]) := by
          simp [ingressStage, launchIngress, hob, hr, hc]
        refine ⟨Or.inr ⟨ing, by rw [hstage]⟩, by simp [hob], fun e' he' => ?_⟩
        rw [hstage] at he'; simp at he'
        exact ⟨by simp [hob], _, he'.symm⟩
      · have hstage : ingressStage cfg spec =
            (Except.ok (), [ApiCall.createIngress ing]) := by
          simp [ingressStage, launchIngress, hob, hr, hc]
        refine ⟨Or.inr ⟨ing, by rw [hstage]⟩, by simp [hob], fun e' he' => ?_⟩
        rw [hstage] at he'; simp at he'

/-! ## Lemmas about the cleanup loop -/

theorem deleteEach_foldl (del : String → Except String Unit) (call : String → ApiCall)
    (ctx : String) :
    ∀ (items : List K8sResource) (acc : List ApiCall × List String),
      (items.foldl (fun acc it =>
        match del it.name with
        | Except.ok _ => (acc.1 ++ [call it.name], acc.2)
        | Except.error e => (acc.1 ++ [call it.name], acc.2 ++ [ctx ++ e])) acc).1
        = acc.1 ++ items.map (fun it => call it.name)
  | [], acc => by simp
  | it :: t, acc => by
    rw [List.foldl_cons]
    rcases h : del it.name with e | u
    · simp only [h]
      rw [deleteEach_foldl del call ctx t]
      simp [List.append_assoc]
    · simp only [h]
      rw [deleteEach_foldl del call ctx t]
      simp [List.append_assoc]

/-- The delete loop attempts every listed item by name, whatever the
individual delete outcomes are. -/
theorem deleteEach_calls (del : String → Except String Unit) (call : String → ApiCall)
    (ctx : String) (items : List K8sResource) :
    (deleteEach del call ctx items).1 = items.map (fun it => call it.name) := by
  unfold deleteEach
  rw [deleteEach_foldl]
  simp

theorem svcCleanup_calls_ok {env : CleanupEnv} {vsel : String}
    {items : List K8sResource} (h : env.listServices vsel = Except.ok items) :
    (svcCleanup env vsel).1
      = ApiCall.listServices vsel :: items.map (fun r => ApiCall.deleteService r.name) := by
  unfold svcCleanup
  rw [h]
  simp [deleteEach_calls]

theorem svcCleanup_calls_err {env : CleanupEnv} {vsel : String} {e : String}
    (h : env.listServices vsel = Except.error e) :
    (svcCleanup env vsel).1 = [ApiCall.listServices vsel] := by
  unfold svcCleanup
  rw [h]

theorem ingCleanup_calls_ok {env : CleanupEnv} {vsel : String}
    {items : List K8sResource} (h : env.listIngresses vsel = Except.ok items) :
    (ingCleanup env vsel).1
      = ApiCall.listIngresses vsel :: items.map (fun r => ApiCall.deleteIngress r.name) := by
  unfold ingCleanup
  rw [h]
  simp [deleteEach_calls]

theorem ingCleanup_calls_err {env : CleanupEnv} {vsel : String} {e : String}
    (h : env.listIngresses vsel = Except.error e) :
    (ingCleanup env vsel).1 = [ApiCall.listIngresses vsel] := by
  unfold ingCleanup
  rw [h]

/-- The calls of either cleanup half depend only on the listing outcome,
never on the delete outcomes. -/
theorem svcCleanup_calls_of_list_eq {env env' : CleanupEnv} {vsel : String}
    (h : env.listServices = env'.listServices) :
    (svcCleanup env vsel).1 = (svcCleanup env' vsel).1 := by
  rcases hl : env.listServices vsel with e | items
  · rw [svcCleanup_calls_err hl, svcCleanup_calls_err (h ▸ hl)]
  · rw [svcCleanup_calls_ok hl, svcCleanup_calls_ok (h ▸ hl)]

theorem ingCleanup_calls_of_list_eq {env env' : CleanupEnv} {vsel : String}
    (h : env.listIngresses = env'.listIngresses) :
    (ingCleanup env vsel).1 = (ingCleanup env' vsel).1 := by
  rcases hl : env.listIngresses vsel with e | items
  · rw [ingCleanup_calls_err hl, ingCleanup_calls_err (h ▸ hl)]
  · rw [ingCleanup_calls_ok hl, ingCleanup_calls_ok (h ▸ hl)]

theorem processEvent_other (sel : String) (env : CleanupEnv) (t : String) :
    processEvent sel env (EventObject.other t)
      = ([], ["CleanupWatcher got unexpected object type: " ++ t]) := rfl

theorem processEvent_not_succeeded (sel : String) (env : CleanupEnv) (j : JobObj)
    (h : ¬ 0 < j.succeeded) :
    processEvent sel env (EventObject.job j) = ([], []) := by
  simp [processEvent, h]

theorem processEvent_succeeded_calls (sel : String) (env : CleanupEnv) (j : JobObj)
    (h : 0 < j.succeeded) :
    (processEvent sel env (EventObject.job j)).1
      = (svcCleanup env (videoSelOf sel j)).1 ++ (ingCleanup env (videoSelOf sel j)).1 := by
  simp [processEvent, h]

theorem pairFoldl {α : Type} (f : α → List ApiCall × List String) :
    ∀ (l : List α) (acc : List ApiCall × List String),
      l.foldl (fun acc x => (acc.1 ++ (f x).1, acc.2 ++ (f x).2)) acc
        = (acc.1 ++ (l.map fun x => (f x).1).flatten,
           acc.2 ++ (l.map fun x => (f x).2).flatten)
  | [], acc => by simp
  | x :: t, acc => by
    rw [List.foldl_cons, pairFoldl f t]
    simp [List.append_assoc]

/-- With the watch established, the watcher consumes the whole stream:
it ends with the channel, having processed every event in order. -/
theorem CleanupWatcher_run (ds : List (String × String)) (hds : ds ≠ [])
    (events : List (CleanupEnv × EventObject)) :
    CleanupWatcher ds (Except.ok ()) events
      = (WatcherResult.streamEnded,
         ApiCall.watchJobs (String.mk (selJoin ds)) ::
           (events.map fun pe =>
             (processEvent (String.mk (selJoin ds)) pe.1 pe.2).1).flatten,
         (events.map fun pe =>
           (processEvent (String.mk (selJoin ds)) pe.1 pe.2).2).flatten) := by
  unfold CleanupWatcher
  rw [mkLabelSelector_eq ds hds]
  dsimp only
  rw [pairFoldl (fun pe => processEvent (String.mk (selJoin ds)) pe.1 pe.2) events ([], [])]
  simp

/-! ## The combined `Launch` control-flow lemma -/

theorem sublist_012 {la lb lc : List Nat} (hla : la = [] ∨ la = [0])
    (hlb : lb = [] ∨ lb = [1]) (hlc : lc = [] ∨ lc = [2]) :
    (la ++ lb ++ lc).Sublist [0, 1, 2] := by
  rcases hla with rfl | rfl <;> rcases hlb with rfl | rfl <;>
    rcases hlc with rfl | rfl <;> decide

/-- Facts about a trace that is empty or a single job create. -/
theorem shape_job {l : List ApiCall}
    (h : l = [] ∨ ∃ x, l = [ApiCall.createJob x]) :
    (∀ y, ApiCall.createService y ∉ l) ∧ (∀ y, ApiCall.createIngress y ∉ l) ∧
    (∀ y ∈ l, isCreateCall y = true) ∧
    (l.map apiKindIdx = [] ∨ l.map apiKindIdx = [0]) := by
  rcases h with rfl | ⟨x, rfl⟩ <;> simp [apiKindIdx, isCreateCall]

/-- Facts about a trace that is empty or a single service create. -/
theorem shape_service {l : List ApiCall}
    (h : l = [] ∨ ∃ x, l = [ApiCall.createService x]) :
    (∀ y, ApiCall.createJob y ∉ l) ∧ (∀ y, ApiCall.createIngress y ∉ l) ∧
    (∀ y ∈ l, isCreateCall y = true) ∧
    (l.map apiKindIdx = [] ∨ l.map apiKindIdx = [1]) := by
  rcases h with rfl | ⟨x, rfl⟩ <;> simp [apiKindIdx, isCreateCall]

/-- Facts about a trace that is empty or a single ingress create. -/
theorem shape_ingress {l : List ApiCall}
    (h : l = [] ∨ ∃ x, l = [ApiCall.createIngress x]) :
    (∀ y, ApiCall.createJob y ∉ l) ∧ (∀ y, ApiCall.createService y ∉ l) ∧
    (∀ y ∈ l, isCreateCall y = true) ∧
    (l.map apiKindIdx = [] ∨ l.map apiKindIdx = [2]) := by
  rcases h with rfl | ⟨x, rfl⟩ <;> simp [apiKindIdx, isCreateCall]

theorem seq3_launch (tj ts ti : Option Template)
    (a b c : Except String Unit × List ApiCall)
    (ha : StageOK tj ApiCall.createJob "error creating job: " a)
    (hb : StageOK ts ApiCall.createService "error creating service: " b)
    (hc : StageOK ti ApiCall.createIngress "error creating ingress: " c) :
    ((seq3 a b c).2.map apiKindIdx).Sublist [0, 1, 2] ∧
    (∀ x ∈ (seq3 a b c).2, isCreateCall x = true) ∧
    (tj = none → ∀ x, ApiCall.createJob x ∉ (seq3 a b c).2) ∧
    (ts = none → ∀ x, ApiCall.createService x ∉ (seq3 a b c).2) ∧
    (ti = none → ∀ x, ApiCall.createIngress x ∉ (seq3 a b c).2) ∧
    (∀ e, (seq3 a b c).1 = Except.error e →
      ((∃ m, e = "error creating job: " ++ m) ∧ tj ≠ none ∧
        (∀ x, ApiCall.createService x ∉ (seq3 a b c).2) ∧
        (∀ x, ApiCall.createIngress x ∉ (seq3 a b c).2)) ∨
      ((∃ m, e = "error creating service: " ++ m) ∧ ts ≠ none ∧
        (∀ x, ApiCall.createIngress x ∉ (seq3 a b c).2)) ∨
      ((∃ m, e = "error creating ingress: " ++ m) ∧ ti ≠ none)) := by
  obtain ⟨ar, ac⟩ := a
  obtain ⟨br, bc⟩ := b
  obtain ⟨cr, cc⟩ := c
  obtain ⟨haS, haN, haE⟩ := ha
  obtain ⟨hbS, hbN, hbE⟩ := hb
  obtain ⟨hcS, hcN, hcE⟩ := hc
  simp only at haS hbS hcS
  obtain ⟨haSvc, haIng, haCr, haIdx⟩ := shape_job haS
  obtain ⟨hbJob, hbIng, hbCr, hbIdx⟩ := shape_service hbS
  obtain ⟨hcJob, hcSvc, hcCr, hcIdx⟩ := shape_ingress hcS
  rcases ar with ae | au
  · -- the job step failed: the trace is its trace alone
    have hseq : seq3 (Except.error ae, ac) (br, bc) (cr, cc)
        = (Except.error ae, ac) := rfl
    rw [hseq]
    dsimp only
    obtain ⟨htj, m, hm⟩ := haE ae rfl
    refine ⟨?_, haCr, ?_, fun _ x => haSvc x, fun _ x => haIng x, ?_⟩
    · have := sublist_012 haIdx (Or.inl rfl) (Or.inl rfl)
      simpa using this
    · intro hn
      injection haN hn with h1 h2
      simp at h1
    · intro e he
      cases he
      exact Or.inl ⟨⟨m, hm⟩, htj, haSvc, haIng⟩
  · rcases br with be | bu
    · -- the service step failed: job calls stand, nothing later
      have hseq : seq3 (Except.ok au, ac) (Except.error be, bc) (cr, cc)
          = (Except.error be, ac ++ bc) := rfl
      rw [hseq]
      dsimp only
      obtain ⟨hts, m, hm⟩ := hbE be rfl
      refine ⟨?_, ?_, ?_, ?_, ?_, ?_⟩
      · have := sublist_012 haIdx hbIdx (Or.inl rfl)
        simpa using this
      · intro x hx
        rcases List.mem_append.mp hx with hx | hx
        · exact haCr x hx
        · exact hbCr x hx
      · intro hn x
        injection haN hn with h1 h2
        subst h2
        simp only [List.nil_append]
        exact hbJob x
      · intro hn x
        injection hbN hn with h1 h2
        simp at h1
      · intro hn x
        simp only [List.mem_append]
        rintro (hx | hx)
        · exact haIng x hx
        · exact hbIng x hx
      · intro e he
        cases he
        refine Or.inr (Or.inl ⟨⟨m, hm⟩, hts, fun x => ?_⟩)
        simp only [List.mem_append]
        rintro (hx | hx)
        · exact haIng x hx
        · exact hbIng x hx
    · rcases cr with ce | cu
      · -- the ingress step failed
        have hseq : seq3 (Except.ok au, ac) (Except.ok bu, bc) (Except.error ce, cc)
            = (Except.error ce, ac ++ bc ++ cc) := rfl
        rw [hseq]
        dsimp only
        obtain ⟨hti, m, hm⟩ := hcE ce rfl
        refine ⟨by simpa [List.map_append] using sublist_012 haIdx hbIdx hcIdx,
          ?_, ?_, ?_, ?_, ?_⟩
        · intro x hx
          rcases List.mem_append.mp hx with hx | hx
          · rcases List.mem_append.mp hx with hx | hx
            · exact haCr x hx
            · exact hbCr x hx
          · exact hcCr x hx
        · intro hn x
          injection haN hn with h1 h2
          subst h2
          simp only [List.mem_append]
          rintro ((hx | hx) | hx)
          · simp at hx
          · exact hbJob x hx
          · exact hcJob x hx
        · intro hn x
          injection hbN hn with h1 h2
          subst h2
          simp only [List.mem_append]
          rintro ((hx | hx) | hx)
          · exact haSvc x hx
          · simp at hx
          · exact hcSvc x hx
        · intro hn x
          injection hcN hn with h1 h2
          simp at h1
        · intro e he
          cases he
          exact Or.inr (Or.inr ⟨⟨m, hm⟩, hti⟩)
      · -- every step succeeded
        have hseq : seq3 (Except.ok au, ac) (Except.ok bu, bc) (Except.ok cu, cc)
            = (Except.ok (), ac ++ bc ++ cc) := rfl
        rw [hseq]
        dsimp only
        refine ⟨by simpa [List.map_append] using sublist_012 haIdx hbIdx hcIdx,
          ?_, ?_, ?_, ?_, ?_⟩
        · intro x hx
          rcases List.mem_append.mp hx with hx | hx
          · rcases List.mem_append.mp hx with hx | hx
            · exact haCr x hx
            · exact hbCr x hx
          · exact hcCr x hx
        · intro hn x
          injection haN hn with h1 h2
          subst h2
          simp only [List.mem_append]
          rintro ((hx | hx) | hx)
          · simp at hx
          · exact hbJob x hx
          · exact hcJob x hx
        · intro hn x
          injection hbN hn with h1 h2
          subst h2
          simp only [List.mem_append]
          rintro ((hx | hx) | hx)
          · exact haSvc x hx
          · simp at hx
          · exact hcSvc x hx
        · intro hn x
          injection hcN hn with h1 h2
          subst h2
          simp only [List.mem_append]
          rintro ((hx | hx) | hx)
          · exact haIng x hx
          · exact hbIng x hx
          · simp at hx
        · intro e he
          cases he

/-! ## The claims -/

/-- C1: for every valid template and every spec, the resource returned by
render carries the full fixed default-label set (under every key the
identity write does not claim) and the identity label mapped to the spec's
identifier; the identity write happens last and wins over any value the
template or the default-label set put under that key, and a label map is
always present in the result even when the parsed object had none. -/
theorem claim1_render_identity_label_wins (tmpl : Template) (dec : Decoder)
    (ds : List (String × String)) (kind : String) (spec : TemplateSpec)
    (res : K8sResource)
    (hnd : (ds.map Prod.fst).Nodup)
    (h : renderResource tmpl dec ds kind spec = Except.ok res) :
    res.labels.isSome = true ∧
    getLabel (res.labels.getD []) VideoIdLabel = some spec.VideoId ∧
    (∀ k v, (k, v) ∈ ds → k ≠ VideoIdLabel →
      getLabel (res.labels.getD []) k = some v) := by
  obtain ⟨text, parsed, ht, hd, hres⟩ := renderResource_ok h
  subst hres
  refine ⟨rfl, ?_, ?_⟩
  · exact getLabel_setLabel_self _ _ _
  · intro k v hm hk
    show getLabel (setLabel (overlayLabels (parsed.labels.getD []) ds)
      VideoIdLabel spec.VideoId) k = some v
    rw [getLabel_setLabel_ne _ _ _ _ hk]
    exact getLabel_overlay_mem k v ds _ hnd hm

theorem claim1_witness :
    res1.labels.isSome = true ∧
    getLabel (res1.labels.getD []) VideoIdLabel = some "vid" ∧
    (∀ k v, (k, v) ∈ [("app", "x")] → k ≠ VideoIdLabel →
      getLabel (res1.labels.getD []) k = some v) :=
  claim1_render_identity_label_wins tmplOk decOk [("app", "x")] "job"
    { VideoId := "vid" } res1 (by decide) rfl

/-- C2: with the watch established, the watcher consumes every event of the
stream in order; a non-job object is discarded with a log line and nothing
else; a job with zero succeeded count triggers nothing; a job with positive
succeeded count makes the loop list the services matching the selector that
combines the default-label selector with the identity label carrying the
job's own label value and delete each listed service by name, and then do
the same for ingresses. -/
theorem claim2_cleanup_event_handling (ds : List (String × String)) (hds : ds ≠ []) :
    (∀ events, CleanupWatcher ds (Except.ok ()) events
       = (WatcherResult.streamEnded,
          ApiCall.watchJobs (String.mk (selJoin ds)) ::
            (events.map fun pe =>
              (processEvent (String.mk (selJoin ds)) pe.1 pe.2).1).flatten,
          (events.map fun pe =>
            (processEvent (String.mk (selJoin ds)) pe.1 pe.2).2).flatten)) ∧
    (∀ env t, processEvent (String.mk (selJoin ds)) env (EventObject.other t)
       = ([], ["CleanupWatcher got unexpected object type: " ++ t])) ∧
    (∀ env j, j.succeeded = 0 →
       processEvent (String.mk (selJoin ds)) env (EventObject.job j) = ([], [])) ∧
    (∀ env j svcs ings, 0 < j.succeeded →
       env.listServices (videoSelOf (String.mk (selJoin ds)) j) = Except.ok svcs →
       env.listIngresses (videoSelOf (String.mk (selJoin ds)) j) = Except.ok ings →
       (processEvent (String.mk (selJoin ds)) env (EventObject.job j)).1
         = (ApiCall.listServices (videoSelOf (String.mk (selJoin ds)) j) ::
             svcs.map fun r => ApiCall.deleteService r.name) ++
           (ApiCall.listIngresses (videoSelOf (String.mk (selJoin ds)) j) ::
             ings.map fun r => ApiCall.deleteIngress r.name)) := by
  refine ⟨fun events => CleanupWatcher_run ds hds events,
    fun env t => processEvent_other _ env t,
    fun env j hj => processEvent_not_succeeded _ env j (by omega),
    fun env j svcs ings hj hs hi => ?_⟩
  rw [processEvent_succeeded_calls _ env j hj, svcCleanup_calls_ok hs,
    ingCleanup_calls_ok hi]

theorem claim2_witness :
    processEvent (String.mk (selJoin [("app", "x")])) env0 (EventObject.other "Pod")
      = ([], ["CleanupWatcher got unexpected object type: " ++ "Pod"]) :=
  (claim2_cleanup_event_handling [("app", "x")] (by decide)).2.1 env0 "Pod"

/-- C3: for a non-empty identifier the three kinds are attempted strictly in
the order job, service, ingress, each at most once, only through create
calls (never a delete, so nothing is rolled back); a kind whose template is
absent issues no create call; and when the call returns an error, the error
is the first failing kind's wrapped message, that kind's template was
present, and no kind after the failing one issued a create call — while
calls already made by earlier kinds remain in the trace. -/
theorem claim3_launch_order_failfast (cfg : LauncherCfg) (v : String)
    (hv : v ≠ "") :
    ((Launch cfg v).2.map apiKindIdx).Sublist [0, 1, 2] ∧
    (∀ x ∈ (Launch cfg v).2, isCreateCall x = true) ∧
    (cfg.jobTemplate = none → ∀ x, ApiCall.createJob x ∉ (Launch cfg v).2) ∧
    (cfg.serviceTemplate = none → ∀ x, ApiCall.createService x ∉ (Launch cfg v).2) ∧
    (cfg.ingressTemplate = none → ∀ x, ApiCall.createIngress x ∉ (Launch cfg v).2) ∧
    (∀ e, (Launch cfg v).1 = Except.error e →
      ((∃ m, e = "error creating job: " ++ m) ∧ cfg.jobTemplate ≠ none ∧
        (∀ x, ApiCall.createService x ∉ (Launch cfg v).2) ∧
        (∀ x, ApiCall.createIngress x ∉ (Launch cfg v).2)) ∨
      ((∃ m, e = "error creating service: " ++ m) ∧ cfg.serviceTemplate ≠ none ∧
        (∀ x, ApiCall.createIngress x ∉ (Launch cfg v).2)) ∨
      ((∃ m, e = "error creating ingress: " ++ m) ∧ cfg.ingressTemplate ≠ none)) := by
  have hL : Launch cfg v = seq3 (jobStage cfg { VideoId := v })
      (serviceStage cfg { VideoId := v }) (ingressStage cfg { VideoId := v }) := by
    simp [Launch, hv]
  rw [hL]
  exact seq3_launch cfg.jobTemplate cfg.serviceTemplate cfg.ingressTemplate _ _ _
    (jobStage_ok cfg _) (serviceStage_ok cfg _) (ingressStage_ok cfg _)

theorem claim3_witness :
    ((Launch cfg0 "v").2.map apiKindIdx).Sublist [0, 1, 2] :=
  (claim3_launch_order_failfast cfg0 "v" (by decide)).1

/-- C4: evaluation at the failing input.  The watch loop does end only with
the subscription (an establishment error, or the channel closing), but the
two endings are treated differently: a `Watch` error is returned and
`main`'s check kills the process, while a closed channel makes
`CleanupWatcher` return nil, and `main`'s `err != nil` check then does
nothing — the failure is silently swallowed and the process keeps serving
launches with a dead reconciler, contradicting the claim that every such
ending is fatal. -/
theorem claim4_stream_close_not_fatal :
    (CleanupWatcher [("app", "launcher")] (Except.ok ()) []).1
      = WatcherResult.streamEnded ∧
    watcherGoReturn (CleanupWatcher [("app", "launcher")] (Except.ok ()) []).1
      = some (Except.ok ()) ∧
    mainTreatsFatal (Except.ok ()) = false ∧
    (∀ e, watcherGoReturn (WatcherResult.watchError e) = some (Except.error e) ∧
      mainTreatsFatal (Except.error e) = true) :=
  ⟨rfl, rfl, rfl, fun _ => ⟨rfl, rfl⟩⟩

/-- C5: no outcome of a list or delete call can end the reconciliation
loop: for every event stream and environments the watcher still consumes
the entire stream and ends only with the channel, every event's calls are
all issued; which calls are issued never depends on the delete outcomes
(so deleting an already-absent resource changes nothing), and a failed
service listing still lets the same event's ingress half run. -/
theorem claim5_cleanup_failures_nonfatal (ds : List (String × String))
    (hds : ds ≠ []) :
    (∀ events, (CleanupWatcher ds (Except.ok ()) events).1
       = WatcherResult.streamEnded) ∧
    (∀ events, (CleanupWatcher ds (Except.ok ()) events).2.1
       = ApiCall.watchJobs (String.mk (selJoin ds)) ::
           (events.map fun pe =>
             (processEvent (String.mk (selJoin ds)) pe.1 pe.2).1).flatten) ∧
    (∀ sel env env' obj, env.listServices = env'.listServices →
       env.listIngresses = env'.listIngresses →
       (processEvent sel env obj).1 = (processEvent sel env' obj).1) ∧
    (∀ sel env j e ings, 0 < j.succeeded →
       env.listServices (videoSelOf sel j) = Except.error e →
       env.listIngresses (videoSelOf sel j) = Except.ok ings →
       (processEvent sel env (EventObject.job j)).1
         = ApiCall.listServices (videoSelOf sel j) ::
             ApiCall.listIngresses (videoSelOf sel j) ::
               ings.map fun r => ApiCall.deleteIngress r.name) := by
  refine ⟨fun events => by rw [CleanupWatcher_run ds hds events],
    fun events => by rw [CleanupWatcher_run ds hds events],
    fun sel env env' obj hs hi => ?_,
    fun sel env j e ings hj hl hi => ?_⟩
  · cases obj with
    | other t => rfl
    | job j =>
      by_cases hj : 0 < j.succeeded
      · rw [processEvent_succeeded_calls sel env j hj,
          processEvent_succeeded_calls sel env' j hj,
          svcCleanup_calls_of_list_eq hs, ingCleanup_calls_of_list_eq hi]
      · rw [processEvent_not_succeeded sel env j hj,
          processEvent_not_succeeded sel env' j hj]
  · rw [processEvent_succeeded_calls sel env j hj, svcCleanup_calls_err hl,
      ingCleanup_calls_ok hi]
    rfl

theorem claim5_witness :
    (CleanupWatcher [("app", "x")] (Except.ok ()) []).1
      = WatcherResult.streamEnded :=
  (claim5_cleanup_failures_nonfatal [("app", "x")] (by decide)).1 []

/-- C6: launching with the empty identifier fails with the validation error
immediately and the cluster-API call trace is empty, whatever the
configuration — no template is consulted and nothing is created. -/
theorem claim6_launch_empty_rejected (cfg : LauncherCfg) :
    Launch cfg "" = (Except.error "video ID cannot be empty", []) := rfl

/-- C7: for every spec with a non-empty identifier, the derived
`UniqueName` is exactly 8 characters, is exactly the first 8 characters of
the 40-character lowercase-hex SHA-1 digest of the identifier, consists of
lowercase hex characters only, and depends on the identifier alone. -/
theorem claim7_uniqueName_hash (spec : TemplateSpec) (h : spec.VideoId ≠ "") :
    (GenTemplateSpec spec).UniqueName.length = 8 ∧
    (GenTemplateSpec spec).UniqueName.data = (sha1HexChars spec.VideoId).take 8 ∧
    (∀ c ∈ (GenTemplateSpec spec).UniqueName.data, c ∈ hexLowerChars) ∧
    (∀ spec' : TemplateSpec, spec'.VideoId = spec.VideoId →
      (GenTemplateSpec spec').UniqueName = (GenTemplateSpec spec).UniqueName) := by
  refine ⟨?_, rfl, ?_, ?_⟩
  · show ((sha1HexChars spec.VideoId).take 8).length = 8
    rw [List.length_take, length_sha1HexChars]
    norm_num
  · intro c hc
    exact mem_sha1HexChars _ (List.take_subset _ _ hc)
  · intro spec' h'
    show String.mk ((sha1HexChars spec'.VideoId).take 8)
      = String.mk ((sha1HexChars spec.VideoId).take 8)
    rw [h']

theorem claim7_witness :
    (GenTemplateSpec { VideoId := "abc" }).UniqueName.length = 8 :=
  (claim7_uniqueName_hash { VideoId := "abc" } (by decide)).1

/-- C8: for every kind, a template-execution failure makes render return
exactly the hard error "error executing <kind> template: ..." and a decode
failure exactly "error parsing <kind> YAML: ...", and a failed render never
also returns a resource object. -/
theorem claim8_render_error_messages (tmpl : Template) (dec : Decoder)
    (ds : List (String × String)) (spec : TemplateSpec) :
    (∀ kind e, tmpl (GenTemplateSpec spec) = Except.error e →
      renderResource tmpl dec ds kind spec
        = Except.error ("error executing " ++ kind ++ " template: " ++ e)) ∧
    (∀ kind text e, tmpl (GenTemplateSpec spec) = Except.ok text →
      dec text = Except.error e →
      renderResource tmpl dec ds kind spec
        = Except.error ("error parsing " ++ kind ++ " YAML: " ++ e)) ∧
    (∀ kind e, renderResource tmpl dec ds kind spec = Except.error e →
      ∀ r, renderResource tmpl dec ds kind spec ≠ Except.ok r) := by
  refine ⟨?_, ?_, ?_⟩
  · intro kind e he
    unfold renderResource
    rw [he]
  · intro kind text e ht hd
    simp only [renderResource, ht, hd]
  · intro kind e he r hr
    rw [he] at hr
    exact absurd hr (by simp)

theorem claim8_witness :
    renderResource tmplBad decOk [] "job" { VideoId := "vid" }
      = Except.error ("error executing " ++ "job" ++ " template: " ++ "boom") :=
  (claim8_render_error_messages tmplBad decOk [] { VideoId := "vid" }).1
    "job" "boom" rfl

/-- C9: the watch-selector construction is in bounds exactly when the
default-label set is non-empty; on a non-empty set it yields the well-formed
comma-joined selector without trailing separator, and on the empty set the
final slicing is out of range — the panic branch is reachable. -/
theorem claim9_selector_construction :
    (∀ ds : List (String × String), (mkLabelSelector ds).isSome ↔ ds ≠ []) ∧
    (∀ ds : List (String × String), ds ≠ [] →
      mkLabelSelector ds = some (String.mk (selJoin ds))) ∧
    mkLabelSelector [] = none := by
  refine ⟨?_, mkLabelSelector_eq, mkLabelSelector_nil⟩
  intro ds
  constructor
  · intro h hds
    subst hds
    simp [mkLabelSelector_nil] at h
  · intro h
    rw [mkLabelSelector_eq ds h]
    rfl

theorem claim9_witness :
    mkLabelSelector [("app", "x")] = some (String.mk (selJoin [("app", "x")])) :=
  claim9_selector_construction.2.1 [("app", "x")] (by decide)

/-- C10: when render succeeds, only the labels of the parsed object are
touched: the returned object is the decoder's object with every field other
than the label map unchanged. -/
theorem claim10_render_frame (tmpl : Template) (dec : Decoder)
    (ds : List (String × String)) (kind : String) (spec : TemplateSpec)
    (res : K8sResource)
    (h : renderResource tmpl dec ds kind spec = Except.ok res) :
    ∃ text parsed, tmpl (GenTemplateSpec spec) = Except.ok text ∧
      dec text = Except.ok parsed ∧
      res.name = parsed.name ∧ res.rest = parsed.rest ∧
      res = { parsed with labels := res.labels } := by
  obtain ⟨text, parsed, ht, hd, hres⟩ := renderResource_ok h
  subst hres
  exact ⟨text, parsed, ht, hd, rfl, rfl, rfl⟩

theorem claim10_witness :
    ∃ text parsed,
      tmplOk (GenTemplateSpec { VideoId := "vid" }) = Except.ok text ∧
      decOk text = Except.ok parsed ∧
      res2.name = parsed.name ∧ res2.rest = parsed.rest ∧
      res2 = { parsed with labels := res2.labels } :=
  claim10_render_frame tmplOk decOk [] "job" { VideoId := "vid" } res2 rfl

end Launcher
